import Mathlib

/-!
Shallow embedding of the terminal-emulation core of the Yassh repository
(src/terminal/buffer.rs, src/terminal/ansi.rs, src/terminal/vt100.rs).

Machine integers (`usize`, `u16`, `u8`) are modelled as `Nat`; operations
whose Rust source can panic (`VecDeque::insert` past the end, slice ranges
with `start > end`, overflow-checked subtraction) return `Option`, with
`none` standing for a panic.  `Nat` subtraction coincides with Rust's
`saturating_sub`, which the source uses at the places where it matters.
-/

namespace Yassh

/-- `egui::Color32`: an (r, g, b, a) quadruple.  `from_rgb` sets alpha 255;
`TRANSPARENT` is all zeroes. -/
structure Color where
  r : Nat
  g : Nat
  b : Nat
  a : Nat
deriving DecidableEq, Repr

def Color.fromRgb (r g b : Nat) : Color := ⟨r, g, b, 255⟩

def Color.transparent : Color := ⟨0, 0, 0, 0⟩

/-- `CellStyle` from buffer.rs. -/
structure CellStyle where
  fg : Color
  bg : Color
  bold : Bool
  italic : Bool
  underline : Bool
  strikethrough : Bool
  inverse : Bool
  dim : Bool
  blink : Bool
deriving DecidableEq, Repr

/-- `CellStyle::default()`: fg = (204,204,204), bg transparent, attributes off. -/
def CellStyle.default : CellStyle :=
  ⟨Color.fromRgb 204 204 204, Color.transparent,
   false, false, false, false, false, false, false⟩

/-- `Cell` from buffer.rs. -/
structure Cell where
  ch : Char
  style : CellStyle
deriving DecidableEq, Repr

def Cell.default : Cell := ⟨' ', CellStyle.default⟩

def Cell.new (ch : Char) (style : CellStyle) : Cell := ⟨ch, style⟩

/-- `Line` from buffer.rs. -/
structure Line where
  cells : List Cell
  wrapped : Bool
deriving DecidableEq, Repr

/-- `Line::with_style`. -/
def Line.withStyle (cols : Nat) (style : CellStyle) : Line :=
  ⟨List.replicate cols ⟨' ', style⟩, false⟩

/-- `Line::get`. -/
def Line.get (l : Line) (col : Nat) : Option Cell := l.cells.get? col

/-- `Line::set`: writes the cell only when the column is in range. -/
def Line.set (l : Line) (col : Nat) (c : Cell) : Line :=
  if col < l.cells.length then ⟨l.cells.set col c, l.wrapped⟩ else l

/-- `Line::len`. -/
def Line.len (l : Line) : Nat := l.cells.length

/-- `Line::clear`: every cell becomes a space with the given style. -/
def Line.clear (l : Line) (style : CellStyle) : Line :=
  ⟨l.cells.map (fun _ => ⟨' ', style⟩), l.wrapped⟩

/-- `Line::clear_range`: `end` is first clamped to the cell count; the Rust
slice `&mut self.cells[start..end]` panics when `start` exceeds the clamped
`end`, hence the `Option`. -/
def Line.clearRange (l : Line) (start stop : Nat) (style : CellStyle) :
    Option Line :=
  let e := min stop l.cells.length
  if start ≤ e then
    some ⟨l.cells.mapIdx (fun i c => if start ≤ i ∧ i < e then ⟨' ', style⟩ else c),
          l.wrapped⟩
  else none

structure CursorPosition where
  row : Nat
  col : Nat
deriving DecidableEq, Repr

/- List helpers mirroring the `VecDeque`/`Vec` operations used by buffer.rs. -/

/-- `VecDeque::remove(i)`: removes the element at `i`; no-op when `i` is out
of range (Rust returns `None` there, and the caller ignores the result). -/
def listRemove : List α → Nat → List α
  | [], _ => []
  | _ :: xs, 0 => xs
  | x :: xs, n + 1 => x :: listRemove xs n

/-- Insertion at an index `≤ length`; callers that cannot guarantee the bound
use `listInsert?` below instead. -/
def listInsertIdx : List α → Nat → α → List α
  | l, 0, x => x :: l
  | [], _ + 1, x => [x]
  | y :: ys, n + 1, x => y :: listInsertIdx ys n x

/-- `VecDeque::insert(i, x)` / `Vec::insert(i, x)`: panics when `i > len`. -/
def listInsert? (l : List α) (i : Nat) (x : α) : Option (List α) :=
  if i ≤ l.length then some (listInsertIdx l i x) else none

/-- In-place update of the element at `i` (no-op when out of range),
mirroring `get_mut` followed by a field assignment. -/
def listModify : List α → Nat → (α → α) → List α
  | [], _, _ => []
  | x :: xs, 0, f => f x :: xs
  | x :: xs, n + 1, f => x :: listModify xs n f

/-- `get_mut(i)` followed by a fallible mutation `f`; `none` when `f`
panics, the list unchanged when the index is out of range. -/
def modifyLine? (ls : List Line) (i : Nat) (f : Line → Option Line) :
    Option (List Line) :=
  match ls.get? i with
  | none => some ls
  | some l => (f l).map (fun l' => ls.set i l')

/-- Clearing a set of screen rows: for each `r` in `rs`, the line at buffer
index `start + r` (when it exists) is cleared to spaces with `style`. -/
def clearRows (ls : List Line) (start : Nat) (rs : List Nat)
    (style : CellStyle) : List Line :=
  rs.foldl (fun acc r => listModify acc (start + r) (fun l => l.clear style)) ls

/-- `TerminalBuffer` from buffer.rs (unified scrollback-plus-screen model). -/
structure TerminalBuffer where
  lines : List Line
  cols : Nat
  rows : Nat
  maxLines : Nat
  serverScreenStart : Nat
  cursor : CursorPosition
  savedCursor : CursorPosition
  currentStyle : CellStyle
  scrollTop : Nat
  scrollBottom : Nat
  originMode : Bool
  defaultFg : Color
  defaultBg : Color
deriving DecidableEq, Repr

namespace TerminalBuffer

/-- `TerminalBuffer::new`: DEFAULT_COLS = 80, DEFAULT_ROWS = 24,
MIN_BUFFER_SIZE = 1000; the buffer starts with no lines. -/
def new (maxScrollback : Nat) (fg bg : Color) : TerminalBuffer :=
  { lines := []
    cols := 80
    rows := 24
    maxLines := max maxScrollback 1000 + 24
    serverScreenStart := 0
    cursor := ⟨0, 0⟩
    savedCursor := ⟨0, 0⟩
    currentStyle := { CellStyle.default with fg := fg }
    scrollTop := 0
    scrollBottom := 24 - 1
    originMode := false
    defaultFg := fg
    defaultBg := bg }

/-- `server_screen_to_buffer`. -/
def toBufferIdx (b : TerminalBuffer) (screenRow : Nat) : Nat :=
  b.serverScreenStart + screenRow

/-- `trim_buffer`: closed form of the `while len > max_lines` pop-front loop;
`k` front lines are dropped and `server_screen_start` is decremented `k`
times with saturation. -/
def trimBuffer (b : TerminalBuffer) : TerminalBuffer :=
  let k := b.lines.length - b.maxLines
  { b with lines := b.lines.drop k
           serverScreenStart := b.serverScreenStart - k }

/-- `ensure_line_exists`: closed form of the push-back loop. -/
def ensureLineExists (b : TerminalBuffer) (idx : Nat) : TerminalBuffer :=
  let ls := b.lines ++ List.replicate (idx + 1 - b.lines.length)
    (Line.withStyle b.cols b.currentStyle)
  { b with lines := ls }

/-- One iteration of the `scroll_up` loop.  With `scroll_top == 0` the
buffer grows at the bottom and the screen start advances (old top row
becomes history); otherwise one line is rotated inside the scroll region.
The region-branch insertion index is clamped to the length, so
`listInsertIdx` is exercised only at indices `≤ length`. -/
def scrollUpOnce (b : TerminalBuffer) : TerminalBuffer :=
  if b.scrollTop = 0 then
    trimBuffer
      { b with lines := b.lines ++ [Line.withStyle b.cols b.currentStyle]
               serverScreenStart := b.serverScreenStart + 1 }
  else
    let topIdx := b.toBufferIdx b.scrollTop
    let bottomIdx := b.toBufferIdx b.scrollBottom
    if topIdx < b.lines.length then
      let ls1 := listRemove b.lines topIdx
      let ls2 := listInsertIdx ls1 (min bottomIdx ls1.length)
        (Line.withStyle b.cols b.currentStyle)
      { b with lines := ls2 }
    else b

/-- `scroll_up(count)`. -/
def scrollUp (b : TerminalBuffer) : Nat → TerminalBuffer
  | 0 => b
  | n + 1 => scrollUp (scrollUpOnce b) n

/-- One iteration of the `scroll_down` loop.  The final `insert(top_idx)`
is not clamped, so it can panic (e.g. after a row-shrinking `resize` left
`scroll_top > scroll_bottom`). -/
def scrollDownOnce (b : TerminalBuffer) : Option TerminalBuffer :=
  let topIdx := b.toBufferIdx b.scrollTop
  let bottomIdx := b.toBufferIdx b.scrollBottom
  if bottomIdx < b.lines.length then
    (listInsert? (listRemove b.lines bottomIdx) topIdx
        (Line.withStyle b.cols b.currentStyle)).map
      (fun ls => { b with lines := ls })
  else some b

/-- `scroll_down(count)`. -/
def scrollDown (b : TerminalBuffer) : Nat → Option TerminalBuffer
  | 0 => some b
  | n + 1 => (scrollDownOnce b).bind (fun b' => scrollDown b' n)

/-- `new_line`. -/
def newLine (b : TerminalBuffer) : TerminalBuffer :=
  if b.cursor.row ≥ b.scrollBottom then b.scrollUp 1
  else { b with cursor := { b.cursor with row := b.cursor.row + 1 } }

/-- `put_char`: wraps at the right edge, clamps the row, materialises the
line, then writes the cell and advances the column. -/
def putChar (b : TerminalBuffer) (ch : Char) : TerminalBuffer :=
  let b :=
    if b.cursor.col ≥ b.cols then
      newLine { b with cursor := { b.cursor with col := 0 } }
    else b
  let b := { b with cursor := { b.cursor with row := min b.cursor.row (b.rows - 1) } }
  let idx := b.toBufferIdx b.cursor.row
  let b := b.ensureLineExists idx
  if idx < b.lines.length then
    { b with lines := listModify b.lines idx
               (fun l => l.set b.cursor.col (Cell.new ch b.currentStyle))
             cursor := { b.cursor with col := b.cursor.col + 1 } }
  else b

/-- `carriage_return`. -/
def carriageReturn (b : TerminalBuffer) : TerminalBuffer :=
  { b with cursor := { b.cursor with col := 0 } }

/-- `backspace`. -/
def backspace (b : TerminalBuffer) : TerminalBuffer :=
  if b.cursor.col > 0 then
    { b with cursor := { b.cursor with col := b.cursor.col - 1 } }
  else b

/-- `tab`: advance to the next multiple-of-8 stop, clamped to the last
column. -/
def tab (b : TerminalBuffer) : TerminalBuffer :=
  let next := min ((b.cursor.col / 8 + 1) * 8) (b.cols - 1)
  { b with cursor := { b.cursor with col := next } }

/-- `set_cursor_position`. -/
def setCursorPosition (b : TerminalBuffer) (row col : Nat) : TerminalBuffer :=
  let row' :=
    if b.originMode then min (b.scrollTop + row) b.scrollBottom
    else min row (b.rows - 1)
  { b with cursor := ⟨row', min col (b.cols - 1)⟩ }

/-- `move_cursor_up`. -/
def moveCursorUp (b : TerminalBuffer) (count : Nat) : TerminalBuffer :=
  let minRow := if b.originMode then b.scrollTop else 0
  { b with cursor := { b.cursor with row := max (b.cursor.row - count) minRow } }

/-- `move_cursor_down` (`self.rows - 1` is a plain subtraction in the
source; `rows` is never zero on any state reachable here). -/
def moveCursorDown (b : TerminalBuffer) (count : Nat) : TerminalBuffer :=
  let maxRow := if b.originMode then b.scrollBottom else b.rows - 1
  { b with cursor := { b.cursor with row := min (b.cursor.row + count) maxRow } }

/-- `move_cursor_left`. -/
def moveCursorLeft (b : TerminalBuffer) (count : Nat) : TerminalBuffer :=
  { b with cursor := { b.cursor with col := b.cursor.col - count } }

/-- `move_cursor_right`. -/
def moveCursorRight (b : TerminalBuffer) (count : Nat) : TerminalBuffer :=
  { b with cursor := { b.cursor with col := min (b.cursor.col + count) (b.cols - 1) } }

/-- `save_cursor`. -/
def saveCursor (b : TerminalBuffer) : TerminalBuffer :=
  { b with savedCursor := b.cursor }

/-- `restore_cursor`. -/
def restoreCursor (b : TerminalBuffer) : TerminalBuffer :=
  { b with cursor := b.savedCursor }

/-- `erase_in_display`: never creates lines; modes 0/1 can panic inside
`clear_range` when the cursor column exceeds the clamped end (possible only
after a column-shrinking `resize`). -/
def eraseInDisplay (b : TerminalBuffer) (mode : Nat) : Option TerminalBuffer :=
  let style := b.currentStyle
  let ss := b.serverScreenStart
  match mode with
  | 0 =>
      (modifyLine? b.lines (ss + b.cursor.row)
          (fun l => l.clearRange b.cursor.col b.cols style)).map
        (fun ls1 =>
          let ls2 := clearRows ls1 ss
            (List.range' (b.cursor.row + 1) (b.rows - (b.cursor.row + 1))) style
          { b with lines := ls2 })
  | 1 =>
      let ls1 := clearRows b.lines ss (List.range b.cursor.row) style
      (modifyLine? ls1 (ss + b.cursor.row)
          (fun l => l.clearRange 0 (b.cursor.col + 1) style)).map
        (fun ls2 => { b with lines := ls2 })
  | 2 => some { b with lines := clearRows b.lines ss (List.range b.rows) style }
  | 3 => some { b with lines := clearRows b.lines ss (List.range b.rows) style }
  | _ => some b

/-- `erase_in_line`. -/
def eraseInLine (b : TerminalBuffer) (mode : Nat) : Option TerminalBuffer :=
  let style := b.currentStyle
  let idx := b.toBufferIdx b.cursor.row
  (modifyLine? b.lines idx (fun l =>
      match mode with
      | 0 => l.clearRange b.cursor.col b.cols style
      | 1 => l.clearRange 0 (b.cursor.col + 1) style
      | 2 => some (l.clear style)
      | _ => some l)).map
    (fun ls => { b with lines := ls })

/-- One iteration of the `insert_lines` loop; the `insert(cursor_idx)` is
unclamped and panics when `cursor_idx > len`. -/
def insertLinesGo (b : TerminalBuffer) : Nat → Option TerminalBuffer
  | 0 => some b
  | n + 1 =>
    let bottomIdx := b.toBufferIdx b.scrollBottom
    let cursorIdx := b.toBufferIdx b.cursor.row
    let ls1 := if bottomIdx < b.lines.length then listRemove b.lines bottomIdx
               else b.lines
    match listInsert? ls1 cursorIdx (Line.withStyle b.cols b.currentStyle) with
    | none => none
    | some ls2 => insertLinesGo { b with lines := ls2 } n

/-- `insert_lines(count)`: `scroll_bottom - cursor.row` is overflow-checked
subtraction (a panic when the cursor sits below the scroll bottom). -/
def insertLines (b : TerminalBuffer) (count : Nat) : Option TerminalBuffer :=
  if b.cursor.row ≤ b.scrollBottom then
    insertLinesGo b (min count (b.scrollBottom - b.cursor.row + 1))
  else none

/-- One iteration of the `delete_lines` loop; here the insertion index is
clamped to the length, so only the leading subtraction can panic. -/
def deleteLinesGo (b : TerminalBuffer) : Nat → TerminalBuffer
  | 0 => b
  | n + 1 =>
    let cursorIdx := b.toBufferIdx b.cursor.row
    let bottomIdx := b.toBufferIdx b.scrollBottom
    let ls1 := if cursorIdx < b.lines.length then listRemove b.lines cursorIdx
               else b.lines
    let ls2 := listInsertIdx ls1 (min bottomIdx ls1.length)
                 (Line.withStyle b.cols b.currentStyle)
    deleteLinesGo { b with lines := ls2 } n

/-- `delete_lines(count)`. -/
def deleteLines (b : TerminalBuffer) (count : Nat) : Option TerminalBuffer :=
  if b.cursor.row ≤ b.scrollBottom then
    some (deleteLinesGo b (min count (b.scrollBottom - b.cursor.row + 1)))
  else none

/-- One iteration of the `insert_chars` loop on a line's cells: pop the last
cell, insert a blank at the cursor column (guarded by `col < len`). -/
def insertCharsCells (col : Nat) (style : CellStyle) :
    List Cell → Nat → List Cell
  | cells, 0 => cells
  | cells, n + 1 =>
    insertCharsCells col style
      (if col < cells.length then listInsertIdx cells.dropLast col ⟨' ', style⟩
       else cells) n

/-- `insert_chars(count)`. -/
def insertChars (b : TerminalBuffer) (count : Nat) : TerminalBuffer :=
  let idx := b.toBufferIdx b.cursor.row
  let ls := listModify b.lines idx (fun l =>
    ⟨insertCharsCells b.cursor.col b.currentStyle l.cells count, l.wrapped⟩)
  { b with lines := ls }

/-- One iteration of the `delete_chars` loop: remove at the cursor column,
push a blank at the end (guarded by `col < len`). -/
def deleteCharsCells (col : Nat) (style : CellStyle) :
    List Cell → Nat → List Cell
  | cells, 0 => cells
  | cells, n + 1 =>
    deleteCharsCells col style
      (if col < cells.length then listRemove cells col ++ [⟨' ', style⟩]
       else cells) n

/-- `delete_chars(count)`. -/
def deleteChars (b : TerminalBuffer) (count : Nat) : TerminalBuffer :=
  let idx := b.toBufferIdx b.cursor.row
  let ls := listModify b.lines idx (fun l =>
    ⟨deleteCharsCells b.cursor.col b.currentStyle l.cells count, l.wrapped⟩)
  { b with lines := ls }

/-- `erase_chars(count)`: blank the cells from the cursor column up to
`min (col + count) len`. -/
def eraseChars (b : TerminalBuffer) (count : Nat) : TerminalBuffer :=
  let col := b.cursor.col
  let style := b.currentStyle
  let idx := b.toBufferIdx b.cursor.row
  let ls := listModify b.lines idx (fun l =>
    let e := min (col + count) l.cells.length
    ⟨l.cells.mapIdx (fun i c => if col ≤ i ∧ i < e then ⟨' ', style⟩ else c),
     l.wrapped⟩)
  { b with lines := ls }

/-- `set_scroll_region`. -/
def setScrollRegion (b : TerminalBuffer) (top bottom : Nat) : TerminalBuffer :=
  let top' := min top (b.rows - 1)
  let bottom' := min bottom (b.rows - 1)
  if top' < bottom' then { b with scrollTop := top', scrollBottom := bottom' }
  else b

/-- `reset_scroll_region`. -/
def resetScrollRegion (b : TerminalBuffer) : TerminalBuffer :=
  { b with scrollTop := 0, scrollBottom := b.rows - 1 }

/-- `set_origin_mode`. -/
def setOriginMode (b : TerminalBuffer) (enabled : Bool) : TerminalBuffer :=
  { b with originMode := enabled
           cursor := ⟨if enabled then b.scrollTop else 0, 0⟩ }

/-- `set_style`. -/
def setStyle (b : TerminalBuffer) (style : CellStyle) : TerminalBuffer :=
  { b with currentStyle := style }

/-- `reset_style`. -/
def resetStyle (b : TerminalBuffer) : TerminalBuffer :=
  { b with currentStyle := { CellStyle.default with fg := b.defaultFg } }

/-- `scrollback_len`. -/
def scrollbackLen (b : TerminalBuffer) : Nat := b.serverScreenStart

/-- `total_lines`. -/
def totalLines (b : TerminalBuffer) : Nat := b.lines.length

/-- `get_line`. -/
def getLine (b : TerminalBuffer) (index : Nat) : Option Line :=
  b.lines.get? index

/-- `resize`: the source only records the new geometry and resets the
scroll-region bottom; lines and cursor are left untouched. -/
def resize (b : TerminalBuffer) (cols rows : Nat) : TerminalBuffer :=
  { b with cols := cols, rows := rows, scrollBottom := rows - 1 }

end TerminalBuffer

/-! Escape-sequence lexer (src/terminal/ansi.rs). -/

/-- `AnsiAction` from ansi.rs. -/
inductive AnsiAction where
  | print (ch : Char)
  | execute (b : Nat)
  | csiDispatch (params : List Nat) (intermediates : List Nat) (finalByte : Char)
  | escDispatch (intermediates : List Nat) (finalByte : Char)
  | oscDispatch (params : List (List Char))
  | dcsHook (params : List Nat) (intermediates : List Nat) (finalByte : Char)
  | dcsPut (b : Nat)
  | dcsUnhook
deriving DecidableEq, Repr

/-- The lexer's `State` enum. -/
inductive State where
  | ground
  | escape
  | escapeIntermediate
  | csiEntry
  | csiParam
  | csiIntermediate
  | csiIgnore
  | dcsEntry
  | dcsParam
  | dcsIntermediate
  | dcsPassthrough
  | dcsIgnore
  | oscString
  | sosPmApcString
deriving DecidableEq, Repr

/-- Rust `str::split(';')` on a string modelled as a character list; an
empty string yields one empty field, exactly as in Rust. -/
def splitSemi : List Char → List (List Char)
  | [] => [[]]
  | c :: rest =>
    let r := splitSemi rest
    if c = ';' then [] :: r
    else
      match r with
      | [] => [[c]]
      | g :: gs => (c :: g) :: gs

/-- Rust `[String]::join(";")` on strings modelled as character lists. -/
def joinSemi : List (List Char) → List Char
  | [] => []
  | [g] => g
  | g :: gs => g ++ ';' :: joinSemi gs

/-- `AnsiParser` from ansi.rs; `current_param` is a `u16` with saturating
accumulation; the OSC accumulator string is modelled as a character list. -/
structure AnsiParser where
  state : State
  params : List Nat
  currentParam : Nat
  intermediates : List Nat
  oscString : List Char
deriving DecidableEq, Repr

namespace AnsiParser

def new : AnsiParser := ⟨State.ground, [], 0, [], []⟩

/-- `AnsiParser::clear`. -/
def reset (p : AnsiParser) : AnsiParser :=
  { p with params := [], currentParam := 0, intermediates := [], oscString := [] }

/-- `AnsiParser::collect_param`. -/
def collectParam (p : AnsiParser) : AnsiParser :=
  { p with params := p.params ++ [p.currentParam], currentParam := 0 }

/-- `ground` state handler. -/
def groundStep (p : AnsiParser) (b : Nat) : AnsiParser × Option AnsiAction :=
  if b ≤ 0x17 ∨ b = 0x19 ∨ (0x1C ≤ b ∧ b ≤ 0x1F) then (p, some (.execute b))
  else if b = 0x1B then ({ p.reset with state := .escape }, none)
  else if 0x20 ≤ b ∧ b ≤ 0x7F then (p, some (.print (Char.ofNat b)))
  else if (0x80 ≤ b ∧ b ≤ 0x8F) ∨ (0x91 ≤ b ∧ b ≤ 0x97) ∨ b = 0x99 ∨ b = 0x9A then
    (p, some (.execute b))
  else if b = 0x90 then ({ p.reset with state := .dcsEntry }, none)
  else if b = 0x9B then ({ p.reset with state := .csiEntry }, none)
  else if b = 0x9C then (p, none)
  else if b = 0x9D then ({ p.reset with state := .oscString }, none)
  else if b = 0x98 ∨ b = 0x9E ∨ b = 0x9F then ({ p with state := .sosPmApcString }, none)
  else if 0xA0 ≤ b ∧ b ≤ 0xFF then (p, some (.print (Char.ofNat b)))
  else (p, none)

/-- `escape` state handler. -/
def escapeStep (p : AnsiParser) (b : Nat) : AnsiParser × Option AnsiAction :=
  if b ≤ 0x17 ∨ b = 0x19 ∨ (0x1C ≤ b ∧ b ≤ 0x1F) then (p, some (.execute b))
  else if 0x20 ≤ b ∧ b ≤ 0x2F then
    ({ p with intermediates := p.intermediates ++ [b], state := .escapeIntermediate }, none)
  else if (0x30 ≤ b ∧ b ≤ 0x4F) ∨ (0x51 ≤ b ∧ b ≤ 0x57) ∨ b = 0x59 ∨ b = 0x5A ∨
          b = 0x5C ∨ (0x60 ≤ b ∧ b ≤ 0x7E) then
    ({ p with state := .ground }, some (.escDispatch p.intermediates (Char.ofNat b)))
  else if b = 0x50 then ({ p.reset with state := .dcsEntry }, none)
  else if b = 0x58 ∨ b = 0x5E ∨ b = 0x5F then ({ p with state := .sosPmApcString }, none)
  else if b = 0x5B then ({ p.reset with state := .csiEntry }, none)
  else if b = 0x5D then ({ p.reset with state := .oscString }, none)
  else if b = 0x7F then (p, none)
  else if b = 0x1B then (p.reset, none)
  else ({ p with state := .ground }, none)

/-- `escape_intermediate` state handler. -/
def escapeIntermediateStep (p : AnsiParser) (b : Nat) : AnsiParser × Option AnsiAction :=
  if b ≤ 0x17 ∨ b = 0x19 ∨ (0x1C ≤ b ∧ b ≤ 0x1F) then (p, some (.execute b))
  else if 0x20 ≤ b ∧ b ≤ 0x2F then
    ({ p with intermediates := p.intermediates ++ [b] }, none)
  else if 0x30 ≤ b ∧ b ≤ 0x7E then
    ({ p with state := .ground }, some (.escDispatch p.intermediates (Char.ofNat b)))
  else if b = 0x7F then (p, none)
  else if b = 0x1B then ({ p.reset with state := .escape }, none)
  else ({ p with state := .ground }, none)

/-- `csi_entry` state handler. -/
def csiEntryStep (p : AnsiParser) (b : Nat) : AnsiParser × Option AnsiAction :=
  if b ≤ 0x17 ∨ b = 0x19 ∨ (0x1C ≤ b ∧ b ≤ 0x1F) then (p, some (.execute b))
  else if 0x20 ≤ b ∧ b ≤ 0x2F then
    ({ p with intermediates := p.intermediates ++ [b], state := .csiIntermediate }, none)
  else if 0x30 ≤ b ∧ b ≤ 0x39 then
    ({ p with currentParam := b - 0x30, state := .csiParam }, none)
  else if b = 0x3A then ({ p with state := .csiIgnore }, none)
  else if b = 0x3B then ({ p.collectParam with state := .csiParam }, none)
  else if 0x3C ≤ b ∧ b ≤ 0x3F then
    ({ p with intermediates := p.intermediates ++ [b], state := .csiParam }, none)
  else if 0x40 ≤ b ∧ b ≤ 0x7E then
    let p' := p.collectParam
    ({ p' with state := .ground },
     some (.csiDispatch p'.params p'.intermediates (Char.ofNat b)))
  else if b = 0x7F then (p, none)
  else if b = 0x1B then ({ p.reset with state := .escape }, none)
  else ({ p with state := .ground }, none)

/-- `csi_param` state handler. -/
def csiParamStep (p : AnsiParser) (b : Nat) : AnsiParser × Option AnsiAction :=
  if b ≤ 0x17 ∨ b = 0x19 ∨ (0x1C ≤ b ∧ b ≤ 0x1F) then (p, some (.execute b))
  else if 0x20 ≤ b ∧ b ≤ 0x2F then
    ({ p with intermediates := p.intermediates ++ [b], state := .csiIntermediate }, none)
  else if 0x30 ≤ b ∧ b ≤ 0x39 then
    ({ p with currentParam := min (p.currentParam * 10 + (b - 0x30)) 65535 }, none)
  else if b = 0x3A then ({ p with state := .csiIgnore }, none)
  else if b = 0x3B then (p.collectParam, none)
  else if 0x3C ≤ b ∧ b ≤ 0x3F then ({ p with state := .csiIgnore }, none)
  else if 0x40 ≤ b ∧ b ≤ 0x7E then
    let p' := p.collectParam
    ({ p' with state := .ground },
     some (.csiDispatch p'.params p'.intermediates (Char.ofNat b)))
  else if b = 0x7F then (p, none)
  else if b = 0x1B then ({ p.reset with state := .escape }, none)
  else ({ p with state := .ground }, none)

/-- `csi_intermediate` state handler. -/
def csiIntermediateStep (p : AnsiParser) (b : Nat) : AnsiParser × Option AnsiAction :=
  if b ≤ 0x17 ∨ b = 0x19 ∨ (0x1C ≤ b ∧ b ≤ 0x1F) then (p, some (.execute b))
  else if 0x20 ≤ b ∧ b ≤ 0x2F then
    ({ p with intermediates := p.intermediates ++ [b] }, none)
  else if 0x30 ≤ b ∧ b ≤ 0x3F then ({ p with state := .csiIgnore }, none)
  else if 0x40 ≤ b ∧ b ≤ 0x7E then
    let p' := p.collectParam
    ({ p' with state := .ground },
     some (.csiDispatch p'.params p'.intermediates (Char.ofNat b)))
  else if b = 0x7F then (p, none)
  else if b = 0x1B then ({ p.reset with state := .escape }, none)
  else ({ p with state := .ground }, none)

/-- `csi_ignore` state handler. -/
def csiIgnoreStep (p : AnsiParser) (b : Nat) : AnsiParser × Option AnsiAction :=
  if b ≤ 0x17 ∨ b = 0x19 ∨ (0x1C ≤ b ∧ b ≤ 0x1F) then (p, some (.execute b))
  else if (0x20 ≤ b ∧ b ≤ 0x3F) ∨ b = 0x7F then (p, none)
  else if 0x40 ≤ b ∧ b ≤ 0x7E then ({ p with state := .ground }, none)
  else if b = 0x1B then ({ p.reset with state := .escape }, none)
  else ({ p with state := .ground }, none)

/-- `dcs_entry` state handler. -/
def dcsEntryStep (p : AnsiParser) (b : Nat) : AnsiParser × Option AnsiAction :=
  if b ≤ 0x17 ∨ b = 0x19 ∨ (0x1C ≤ b ∧ b ≤ 0x1F) ∨ b = 0x7F then (p, none)
  else if 0x20 ≤ b ∧ b ≤ 0x2F then
    ({ p with intermediates := p.intermediates ++ [b], state := .dcsIntermediate }, none)
  else if 0x30 ≤ b ∧ b ≤ 0x39 then
    ({ p with currentParam := b - 0x30, state := .dcsParam }, none)
  else if b = 0x3A then ({ p with state := .dcsIgnore }, none)
  else if b = 0x3B then ({ p.collectParam with state := .dcsParam }, none)
  else if 0x3C ≤ b ∧ b ≤ 0x3F then
    ({ p with intermediates := p.intermediates ++ [b], state := .dcsParam }, none)
  else if 0x40 ≤ b ∧ b ≤ 0x7E then
    let p' := p.collectParam
    ({ p' with state := .dcsPassthrough },
     some (.dcsHook p'.params p'.intermediates (Char.ofNat b)))
  else if b = 0x1B then ({ p.reset with state := .escape }, none)
  else ({ p with state := .ground }, none)

/-- `dcs_param` state handler. -/
def dcsParamStep (p : AnsiParser) (b : Nat) : AnsiParser × Option AnsiAction :=
  if b ≤ 0x17 ∨ b = 0x19 ∨ (0x1C ≤ b ∧ b ≤ 0x1F) ∨ b = 0x7F then (p, none)
  else if 0x20 ≤ b ∧ b ≤ 0x2F then
    ({ p with intermediates := p.intermediates ++ [b], state := .dcsIntermediate }, none)
  else if 0x30 ≤ b ∧ b ≤ 0x39 then
    ({ p with currentParam := min (p.currentParam * 10 + (b - 0x30)) 65535 }, none)
  else if b = 0x3A ∨ (0x3C ≤ b ∧ b ≤ 0x3F) then ({ p with state := .dcsIgnore }, none)
  else if b = 0x3B then (p.collectParam, none)
  else if 0x40 ≤ b ∧ b ≤ 0x7E then
    let p' := p.collectParam
    ({ p' with state := .dcsPassthrough },
     some (.dcsHook p'.params p'.intermediates (Char.ofNat b)))
  else if b = 0x1B then ({ p.reset with state := .escape }, none)
  else ({ p with state := .ground }, none)

/-- `dcs_intermediate` state handler. -/
def dcsIntermediateStep (p : AnsiParser) (b : Nat) : AnsiParser × Option AnsiAction :=
  if b ≤ 0x17 ∨ b = 0x19 ∨ (0x1C ≤ b ∧ b ≤ 0x1F) ∨ b = 0x7F then (p, none)
  else if 0x20 ≤ b ∧ b ≤ 0x2F then
    ({ p with intermediates := p.intermediates ++ [b] }, none)
  else if 0x30 ≤ b ∧ b ≤ 0x3F then ({ p with state := .dcsIgnore }, none)
  else if 0x40 ≤ b ∧ b ≤ 0x7E then
    let p' := p.collectParam
    ({ p' with state := .dcsPassthrough },
     some (.dcsHook p'.params p'.intermediates (Char.ofNat b)))
  else if b = 0x1B then ({ p.reset with state := .escape }, none)
  else ({ p with state := .ground }, none)

/-- `dcs_passthrough` state handler. -/
def dcsPassthroughStep (p : AnsiParser) (b : Nat) : AnsiParser × Option AnsiAction :=
  if b ≤ 0x17 ∨ b = 0x19 ∨ (0x1C ≤ b ∧ b ≤ 0x1F) ∨ (0x20 ≤ b ∧ b ≤ 0x7E) then
    (p, some (.dcsPut b))
  else if b = 0x7F then (p, none)
  else if b = 0x9C then ({ p with state := .ground }, some .dcsUnhook)
  else if b = 0x1B then ({ p.reset with state := .escape }, some .dcsUnhook)
  else ({ p with state := .ground }, some .dcsUnhook)

/-- `dcs_ignore` state handler. -/
def dcsIgnoreStep (p : AnsiParser) (b : Nat) : AnsiParser × Option AnsiAction :=
  if b ≤ 0x17 ∨ b = 0x19 ∨ (0x1C ≤ b ∧ b ≤ 0x1F) ∨ (0x20 ≤ b ∧ b ≤ 0x7F) then (p, none)
  else if b = 0x9C then ({ p with state := .ground }, none)
  else if b = 0x1B then ({ p.reset with state := .escape }, none)
  else ({ p with state := .ground }, none)

/-- `osc_string` state handler; on BEL/ST/ESC the accumulated string is
split on `;` and dispatched. -/
def oscStringStep (p : AnsiParser) (b : Nat) : AnsiParser × Option AnsiAction :=
  if b ≤ 0x06 ∨ (0x08 ≤ b ∧ b ≤ 0x17) ∨ b = 0x19 ∨ (0x1C ≤ b ∧ b ≤ 0x1F) then (p, none)
  else if b = 0x07 ∨ b = 0x9C then
    ({ p with state := .ground }, some (.oscDispatch (splitSemi p.oscString)))
  else if 0x20 ≤ b ∧ b ≤ 0x7F then
    ({ p with oscString := p.oscString ++ [Char.ofNat b] }, none)
  else if b = 0x1B then
    ({ p.reset with state := .escape }, some (.oscDispatch (splitSemi p.oscString)))
  else ({ p with oscString := p.oscString ++ [Char.ofNat b] }, none)

/-- `sos_pm_apc_string` state handler. -/
def sosPmApcStringStep (p : AnsiParser) (b : Nat) : AnsiParser × Option AnsiAction :=
  if b ≤ 0x17 ∨ b = 0x19 ∨ (0x1C ≤ b ∧ b ≤ 0x1F) ∨ (0x20 ≤ b ∧ b ≤ 0x7F) then (p, none)
  else if b = 0x9C then ({ p with state := .ground }, none)
  else if b = 0x1B then ({ p.reset with state := .escape }, none)
  else (p, none)

/-- `AnsiParser::parse(byte)`: one byte in, at most one action out,
dispatching on the current state. -/
def parse (p : AnsiParser) (b : Nat) : AnsiParser × Option AnsiAction :=
  match p.state with
  | .ground => groundStep p b
  | .escape => escapeStep p b
  | .escapeIntermediate => escapeIntermediateStep p b
  | .csiEntry => csiEntryStep p b
  | .csiParam => csiParamStep p b
  | .csiIntermediate => csiIntermediateStep p b
  | .csiIgnore => csiIgnoreStep p b
  | .dcsEntry => dcsEntryStep p b
  | .dcsParam => dcsParamStep p b
  | .dcsIntermediate => dcsIntermediateStep p b
  | .dcsPassthrough => dcsPassthroughStep p b
  | .dcsIgnore => dcsIgnoreStep p b
  | .oscString => oscStringStep p b
  | .sosPmApcString => sosPmApcStringStep p b

end AnsiParser

/-! SGR/style interpreter (ansi.rs). -/

/-- `ANSI_COLORS`: the 16 standard colors. -/
def ansiColors : List Color :=
  [Color.fromRgb 0 0 0, Color.fromRgb 170 0 0, Color.fromRgb 0 170 0,
   Color.fromRgb 170 85 0, Color.fromRgb 50 100 255, Color.fromRgb 170 0 170,
   Color.fromRgb 0 170 170, Color.fromRgb 170 170 170, Color.fromRgb 85 85 85,
   Color.fromRgb 255 85 85, Color.fromRgb 85 255 85, Color.fromRgb 255 255 85,
   Color.fromRgb 85 85 255, Color.fromRgb 255 85 255, Color.fromRgb 85 255 255,
   Color.fromRgb 255 255 255]

/-- `color_from_256`: 16 standard colors, 6×6×6 cube, 24-step grayscale
ramp; the final `as u8` cast truncates mod 256. -/
def colorFrom256 (index : Nat) : Color :=
  if index < 16 then ansiColors.getD index Color.transparent
  else if index < 232 then
    let i := index - 16
    let r := (i / 36) % 6
    let g := (i / 6) % 6
    let b := i % 6
    Color.fromRgb (if r > 0 then r * 40 + 55 else 0)
      (if g > 0 then g * 40 + 55 else 0) (if b > 0 then b * 40 + 55 else 0)
  else
    let gray := ((index - 232) * 10 + 8) % 256
    Color.fromRgb gray gray gray

/-- The `parse_sgr` loop; 38/48 consume two or four extra parameters
exactly when they are available (the Rust bounds checks `i + 2 < len` /
`i + 4 < len` correspond to the list patterns below). -/
def parseSgrGo (dfg : Color) : CellStyle → List Nat → CellStyle
  | style, [] => style
  | style, 38 :: 5 :: idx :: rest => parseSgrGo dfg { style with fg := colorFrom256 idx } rest
  | style, 38 :: 2 :: r :: g :: bl :: rest =>
      parseSgrGo dfg { style with fg := Color.fromRgb (r % 256) (g % 256) (bl % 256) } rest
  | style, 48 :: 5 :: idx :: rest => parseSgrGo dfg { style with bg := colorFrom256 idx } rest
  | style, 48 :: 2 :: r :: g :: bl :: rest =>
      parseSgrGo dfg { style with bg := Color.fromRgb (r % 256) (g % 256) (bl % 256) } rest
  | style, p :: rest =>
    if p = 0 then parseSgrGo dfg { CellStyle.default with fg := dfg } rest
    else if p = 1 then parseSgrGo dfg { style with bold := true } rest
    else if p = 2 then parseSgrGo dfg { style with dim := true } rest
    else if p = 3 then parseSgrGo dfg { style with italic := true } rest
    else if p = 4 then parseSgrGo dfg { style with underline := true } rest
    else if p = 5 ∨ p = 6 then parseSgrGo dfg { style with blink := true } rest
    else if p = 7 then parseSgrGo dfg { style with inverse := true } rest
    else if p = 9 then parseSgrGo dfg { style with strikethrough := true } rest
    else if p = 21 then parseSgrGo dfg { style with bold := false } rest
    else if p = 22 then parseSgrGo dfg { style with bold := false, dim := false } rest
    else if p = 23 then parseSgrGo dfg { style with italic := false } rest
    else if p = 24 then parseSgrGo dfg { style with underline := false } rest
    else if p = 25 then parseSgrGo dfg { style with blink := false } rest
    else if p = 27 then parseSgrGo dfg { style with inverse := false } rest
    else if p = 29 then parseSgrGo dfg { style with strikethrough := false } rest
    else if 30 ≤ p ∧ p ≤ 37 then
      parseSgrGo dfg { style with fg := ansiColors.getD (p - 30) Color.transparent } rest
    else if p = 39 then parseSgrGo dfg { style with fg := dfg } rest
    else if 40 ≤ p ∧ p ≤ 47 then
      parseSgrGo dfg { style with bg := ansiColors.getD (p - 40) Color.transparent } rest
    else if p = 49 then parseSgrGo dfg { style with bg := Color.transparent } rest
    else if 90 ≤ p ∧ p ≤ 97 then
      parseSgrGo dfg { style with fg := ansiColors.getD (p - 90 + 8) Color.transparent } rest
    else if 100 ≤ p ∧ p ≤ 107 then
      parseSgrGo dfg { style with bg := ansiColors.getD (p - 100 + 8) Color.transparent } rest
    else parseSgrGo dfg style rest

/-- `parse_sgr(params, style, default_fg)`. -/
def parseSgr (params : List Nat) (style : CellStyle) (dfg : Color) : CellStyle :=
  parseSgrGo dfg style params

/-! Semantic interpreter and facade (src/terminal/vt100.rs). -/

/-- `Vt100Mode` from vt100.rs. -/
structure Vt100Mode where
  parser : AnsiParser
  cursorKeysApplication : Bool
  autoWrap : Bool
  cursorVisible : Bool
  reverseVideo : Bool
  bracketedPaste : Bool
  utf8Buffer : List Nat
  bellPending : Bool
  title : Option (List Char)
deriving DecidableEq, Repr

/-- `Vt100Mode::new`. -/
def Vt100Mode.new : Vt100Mode :=
  ⟨AnsiParser.new, false, true, true, false, false, [], false, none⟩

/-- The `param` closure of `handle_csi`: parameter `i`, defaulting when
missing or zero. -/
def paramAt (params : List Nat) (i d : Nat) : Nat :=
  match params.get? i with
  | some p => if p ≠ 0 then p else d
  | none => d

/-- `handle_execute` (C0 controls). -/
def handleExecute (vt : Vt100Mode) (buf : TerminalBuffer) (b : Nat) :
    Vt100Mode × TerminalBuffer :=
  if b = 0x07 then ({ vt with bellPending := true }, buf)
  else if b = 0x08 then (vt, buf.backspace)
  else if b = 0x09 then (vt, buf.tab)
  else if b = 0x0A ∨ b = 0x0B ∨ b = 0x0C then (vt, buf.newLine)
  else if b = 0x0D then (vt, buf.carriageReturn)
  else (vt, buf)

/-- One parameter of `handle_dec_private_mode`. -/
def decPrivateModeOne (set : Bool) (acc : Vt100Mode × TerminalBuffer) (p : Nat) :
    Option (Vt100Mode × TerminalBuffer) :=
  let vt := acc.1
  let buf := acc.2
  if p = 1 then some ({ vt with cursorKeysApplication := set }, buf)
  else if p = 5 then some ({ vt with reverseVideo := set }, buf)
  else if p = 6 then some (vt, buf.setOriginMode set)
  else if p = 7 then some ({ vt with autoWrap := set }, buf)
  else if p = 25 then some ({ vt with cursorVisible := set }, buf)
  else if p = 2004 then some ({ vt with bracketedPaste := set }, buf)
  else if p = 47 ∨ p = 1047 then
    if set then some (vt, buf)
    else (buf.eraseInDisplay 2).map (fun b2 => (vt, b2))
  else if p = 1049 then
    if set then (buf.saveCursor.eraseInDisplay 2).map (fun b2 => (vt, b2))
    else (buf.eraseInDisplay 2).map (fun b2 => (vt, b2.restoreCursor))
  else some (vt, buf)

/-- `handle_dec_private_mode`. -/
def handleDecPrivateMode (vt : Vt100Mode) (buf : TerminalBuffer)
    (params : List Nat) (finalByte : Char) : Option (Vt100Mode × TerminalBuffer) :=
  params.foldlM (decPrivateModeOne (finalByte = 'h')) (vt, buf)

/-- `handle_csi`. -/
def handleCsi (vt : Vt100Mode) (buf : TerminalBuffer) (params : List Nat)
    (intermediates : List Nat) (finalByte : Char) :
    Option (Vt100Mode × TerminalBuffer) :=
  if intermediates.head? = some 0x3F then
    handleDecPrivateMode vt buf params finalByte
  else
    match finalByte with
    | '@' => some (vt, buf.insertChars (paramAt params 0 1))
    | 'A' => some (vt, buf.moveCursorUp (paramAt params 0 1))
    | 'B' | 'e' => some (vt, buf.moveCursorDown (paramAt params 0 1))
    | 'C' | 'a' => some (vt, buf.moveCursorRight (paramAt params 0 1))
    | 'D' => some (vt, buf.moveCursorLeft (paramAt params 0 1))
    | 'E' => some (vt, (buf.moveCursorDown (paramAt params 0 1)).carriageReturn)
    | 'F' => some (vt, (buf.moveCursorUp (paramAt params 0 1)).carriageReturn)
    | 'G' | '`' => some (vt, buf.setCursorPosition buf.cursor.row (paramAt params 0 1 - 1))
    | 'H' | 'f' =>
        some (vt, buf.setCursorPosition (paramAt params 0 1 - 1) (paramAt params 1 1 - 1))
    | 'I' => some (vt, (List.range (paramAt params 0 1)).foldl (fun a _ => a.tab) buf)
    | 'J' => (buf.eraseInDisplay (paramAt params 0 0 % 256)).map (fun b2 => (vt, b2))
    | 'K' => (buf.eraseInLine (paramAt params 0 0 % 256)).map (fun b2 => (vt, b2))
    | 'L' => (buf.insertLines (paramAt params 0 1)).map (fun b2 => (vt, b2))
    | 'M' => (buf.deleteLines (paramAt params 0 1)).map (fun b2 => (vt, b2))
    | 'P' => some (vt, buf.deleteChars (paramAt params 0 1))
    | 'S' => some (vt, buf.scrollUp (paramAt params 0 1))
    | 'T' => (buf.scrollDown (paramAt params 0 1)).map (fun b2 => (vt, b2))
    | 'X' =>
        -- The source's probe loop only reads (`screen()` returns an empty
        -- slice) and then unconditionally calls erase_in_line(0); the count
        -- parameter has no effect.
        (buf.eraseInLine 0).map (fun b2 => (vt, b2))
    | 'd' => some (vt, buf.setCursorPosition (paramAt params 0 1 - 1) buf.cursor.col)
    | 'h' => some (vt, buf)
    | 'l' => some (vt, buf)
    | 'm' =>
        let ps := if params.isEmpty then [0] else params
        some (vt, buf.setStyle (parseSgr ps buf.currentStyle buf.defaultFg))
    | 'n' => some (vt, buf)
    | 'r' =>
        some (vt, buf.setScrollRegion (paramAt params 0 1 - 1) (paramAt params 1 buf.rows - 1))
    | 's' => some (vt, buf.saveCursor)
    | 'u' => some (vt, buf.restoreCursor)
    | _ => some (vt, buf)

/-- `handle_esc`. -/
def handleEsc (vt : Vt100Mode) (buf : TerminalBuffer)
    (intermediates : List Nat) (finalByte : Char) :
    Option (Vt100Mode × TerminalBuffer) :=
  match intermediates.head?, finalByte with
  | none, '7' => some (vt, buf.saveCursor)
  | none, '8' => some (vt, buf.restoreCursor)
  | none, 'D' => some (vt, buf.newLine)
  | none, 'E' => some (vt, buf.carriageReturn.newLine)
  | none, 'M' => some (vt, buf.moveCursorUp 1)
  | none, 'c' =>
      -- RIS: erase display, home cursor, reset style and scroll region,
      -- reset four of the mode flags (bracketed paste is not touched).
      (buf.eraseInDisplay 2).map (fun b1 =>
        ({ vt with cursorKeysApplication := false, autoWrap := true,
                   cursorVisible := true, reverseVideo := false },
         ((b1.setCursorPosition 0 0).resetStyle).resetScrollRegion))
  | some 0x23, '8' =>
      -- DECALN: rows/cols are captured before the fill loops.
      let rows := buf.rows
      let cols := buf.cols
      let b1 := (List.range rows).foldl (fun acc row =>
        (List.range cols).foldl (fun a _ => a.putChar 'E')
          (acc.setCursorPosition row 0)) buf
      some (vt, b1.setCursorPosition 0 0)
  | _, _ => some (vt, buf)

/-- `handle_osc`: titles from OSC 0/2; the remaining fields are rejoined
with `;`. -/
def handleOsc (vt : Vt100Mode) (params : List (List Char)) : Vt100Mode :=
  match params with
  | [] => vt
  | p0 :: rest =>
    if p0 = ['0'] ∨ p0 = ['2'] then
      if rest.length > 0 then { vt with title := some (joinSemi rest) }
      else vt
    else vt

/-- `handle_action`. -/
def handleAction (vt : Vt100Mode) (buf : TerminalBuffer) (a : AnsiAction) :
    Option (Vt100Mode × TerminalBuffer) :=
  match a with
  | .print ch => some (vt, buf.putChar ch)
  | .execute b => some (handleExecute vt buf b)
  | .csiDispatch ps ins f => handleCsi vt buf ps ins f
  | .escDispatch ins f => handleEsc vt buf ins f
  | .oscDispatch ps => some (handleOsc vt ps, buf)
  | .dcsHook _ _ _ => some (vt, buf)
  | .dcsPut _ => some (vt, buf)
  | .dcsUnhook => some (vt, buf)

/-- Continuation-byte predicate for UTF-8. -/
abbrev utf8Cont (b : Nat) : Prop := 0x80 ≤ b ∧ b ≤ 0xBF

/-- `std::str::from_utf8` on the accumulated bytes followed by
`.chars().next()`: validates the sequence (rejecting overlong forms,
surrogates and values above U+10FFFF, as the Rust standard library does)
and yields its single scalar value. -/
def decodeUtf8 : List Nat → Option Char
  | [a, b] =>
    if 0xC2 ≤ a ∧ a ≤ 0xDF ∧ utf8Cont b then
      some (Char.ofNat ((a - 0xC0) * 64 + (b - 0x80)))
    else none
  | [a, b, c] =>
    if ((a = 0xE0 ∧ 0xA0 ≤ b ∧ b ≤ 0xBF) ∨ (0xE1 ≤ a ∧ a ≤ 0xEC ∧ utf8Cont b) ∨
        (a = 0xED ∧ 0x80 ≤ b ∧ b ≤ 0x9F) ∨ (0xEE ≤ a ∧ a ≤ 0xEF ∧ utf8Cont b)) ∧
       utf8Cont c then
      some (Char.ofNat ((a - 0xE0) * 4096 + (b - 0x80) * 64 + (c - 0x80)))
    else none
  | [a, b, c, d] =>
    if ((a = 0xF0 ∧ 0x90 ≤ b ∧ b ≤ 0xBF) ∨ (0xF1 ≤ a ∧ a ≤ 0xF3 ∧ utf8Cont b) ∨
        (a = 0xF4 ∧ 0x80 ≤ b ∧ b ≤ 0x8F)) ∧ utf8Cont c ∧ utf8Cont d then
      some (Char.ofNat ((a - 0xF0) * 262144 + (b - 0x80) * 4096 +
                        (c - 0x80) * 64 + (d - 0x80)))
    else none
  | _ => none

/-- `try_decode_utf8`'s expected length, read off the first buffered byte. -/
def expectedUtf8Len (b0 : Nat) : Nat :=
  if b0 < 0xE0 then 2 else if b0 < 0xF0 then 3 else 4

/-- The emulator state a `process` call threads through: the semantic
interpreter's flags/lexer plus the buffer. -/
structure EmuState where
  vt : Vt100Mode
  buffer : TerminalBuffer
deriving DecidableEq, Repr

/-- One byte of `Vt100Mode::process`: UTF-8 continuation buffering first,
then lead-byte capture, then the lexer/dispatch path.  `none` models a
panic inside a buffer mutation. -/
def step (st : EmuState) (b : Nat) : Option EmuState :=
  if st.vt.utf8Buffer ≠ [] then
    let buf8 := st.vt.utf8Buffer ++ [b]
    if buf8.length < expectedUtf8Len (buf8.headD 0) then
      some { st with vt := { st.vt with utf8Buffer := buf8 } }
    else
      match decodeUtf8 buf8 with
      | some ch =>
          some { st with vt := { st.vt with utf8Buffer := [] },
                         buffer := st.buffer.putChar ch }
      | none => some { st with vt := { st.vt with utf8Buffer := [] } }
  else if 0x80 ≤ b ∧ b < 0xC0 then some st
  else if 0xC0 ≤ b then some { st with vt := { st.vt with utf8Buffer := [b] } }
  else
    let pa := st.vt.parser.parse b
    let vt' := { st.vt with parser := pa.1 }
    match pa.2 with
    | none => some { st with vt := vt' }
    | some act => (handleAction vt' st.buffer act).map (fun vb => ⟨vb.1, vb.2⟩)

/-- `Vt100Mode::process(buffer, data)`: the per-byte loop. -/
def processBytes (st : EmuState) (data : List Nat) : Option EmuState :=
  data.foldlM step st

/-- A concrete construction mirroring `TerminalEmulator::new` with a
1000-line scrollback and the default foreground/background. -/
def initState : EmuState :=
  ⟨Vt100Mode.new,
   TerminalBuffer.new 1000 (Color.fromRgb 204 204 204) (Color.fromRgb 0 0 0)⟩

/-- Cell lookup by absolute line index and column, via the renderer
accessors `get_line`/`Line::get`. -/
def cellAt (st : EmuState) (row col : Nat) : Option Cell :=
  (st.buffer.getLine row).bind (fun l => l.get col)

/-! Sample inputs used to instantiate the theorems below. -/

/-- An 80×24 buffer with one written line and the cursor at column 70. -/
def wideCursorBuf : TerminalBuffer :=
  (((TerminalBuffer.new 1000 (Color.fromRgb 204 204 204)
      (Color.fromRgb 0 0 0)).putChar 'A').setCursorPosition 0 70)

/-- A fresh buffer with scroll region rows 5–10 (`CSI 5;10r`). -/
def regionDemoBuf : TerminalBuffer :=
  (TerminalBuffer.new 1000 (Color.fromRgb 204 204 204)
      (Color.fromRgb 0 0 0)).setScrollRegion 4 9

/-- A parser mid-way through a CSI sequence. -/
def midCsiParser : AnsiParser := ⟨State.csiParam, [3], 7, [], []⟩

/-- A parser inside an OSC string (after `ESC ] 0 ; h i`). -/
def midOscParser : AnsiParser := ⟨State.oscString, [], 0, [], ['0', ';', 'h', 'i']⟩

/-- Replacing only the lexer inside an emulator state. -/
def withParser (st : EmuState) (p : AnsiParser) : EmuState :=
  { st with vt := { st.vt with parser := p } }

/-- The line collection after `erase_in_display(2)`: every screen row
cleared in place. -/
def clearedLines (b : TerminalBuffer) : List Line :=
  clearRows b.lines b.serverScreenStart (List.range b.rows) b.currentStyle

/-- The flag half of the RIS (`ESC c`) handler: lexer back in Ground,
four mode flags reset, bracketed-paste untouched. -/
def risVt (vt : Vt100Mode) : Vt100Mode :=
  { vt with
      parser := ⟨State.ground, [], 0, [], []⟩
      cursorKeysApplication := false
      autoWrap := true
      cursorVisible := true
      reverseVideo := false }

/-- The buffer half of the RIS handler, in the source's order: erase
display, home cursor, reset style, reset scroll region. -/
def risBuffer (b : TerminalBuffer) : TerminalBuffer :=
  ((({ b with lines := clearedLines b }).setCursorPosition 0 0).resetStyle).resetScrollRegion

/-- The emulator state after `ESC c`. -/
def risResult (st : EmuState) : EmuState := ⟨risVt st.vt, risBuffer st.buffer⟩

/-- The emulator state after `CSI 2 J`. -/
def eraseResult (st : EmuState) : EmuState :=
  ⟨{ st.vt with parser := ⟨State.ground, [2], 0, [], []⟩ },
   { st.buffer with lines := clearedLines st.buffer }⟩

/-- What processing `ESC c` (RIS) actually establishes: style, scroll
region and four mode flags reset, cursor at column 0 and at row 0 unless
origin mode rehomes it to the region top (the cursor is positioned before
the scroll region is reset), every existing screen line blanked with the
pre-reset style, and bracketed-paste untouched. -/
def risResetSpec (st : EmuState) : Prop :=
  ∃ st', processBytes st [27, 99] = some st' ∧
    st'.vt.cursorKeysApplication = false ∧
    st'.vt.autoWrap = true ∧
    st'.vt.cursorVisible = true ∧
    st'.vt.reverseVideo = false ∧
    st'.vt.bracketedPaste = st.vt.bracketedPaste ∧
    st'.buffer.cursor.col = 0 ∧
    st'.buffer.cursor.row =
      (if st.buffer.originMode then min st.buffer.scrollTop st.buffer.scrollBottom else 0) ∧
    st'.buffer.currentStyle = { CellStyle.default with fg := st.buffer.defaultFg } ∧
    st'.buffer.scrollTop = 0 ∧
    st'.buffer.scrollBottom = st.buffer.rows - 1 ∧
    (∀ r, r < st.buffer.rows →
      ∀ l, st'.buffer.getLine (st.buffer.serverScreenStart + r) = some l →
        ∀ c ∈ l.cells, c.ch = ' ' ∧ c.style = st.buffer.currentStyle)

/-- What processing `CSI 2 J` establishes: the line count, the scrollback
length, every history line before the screen start and every line past the
screen end are unchanged (no line is allocated or removed by the erase),
and every existing live-screen line is blanked in place. -/
def eraseDisplaySpec (st : EmuState) : Prop :=
  ∃ st', processBytes st [27, 91, 50, 74] = some st' ∧
    st'.buffer.totalLines = st.buffer.totalLines ∧
    st'.buffer.scrollbackLen = st.buffer.scrollbackLen ∧
    (∀ i, i < st.buffer.scrollbackLen → st'.buffer.getLine i = st.buffer.getLine i) ∧
    (∀ i, st.buffer.serverScreenStart + st.buffer.rows ≤ i →
      st'.buffer.getLine i = st.buffer.getLine i) ∧
    (∀ r, r < st.buffer.rows →
      ∀ l, st'.buffer.getLine (st.buffer.serverScreenStart + r) = some l →
        ∀ c ∈ l.cells, c.ch = ' ' ∧ c.style = st.buffer.currentStyle)

/-! Helper lemmas about the list primitives. -/

theorem listModify_length (l : List α) (i : Nat) (f : α → α) :
    (listModify l i f).length = l.length := by
  induction l generalizing i with
  | nil => rfl
  | cons x xs ih =>
    cases i with
    | zero => rfl
    | succ n => simp [listModify, ih]

theorem listModify_get? (l : List α) (i j : Nat) (f : α → α) :
    (listModify l i f).get? j = if i = j then (l.get? j).map f else l.get? j := by
  induction l generalizing i j with
  | nil => simp [listModify]
  | cons x xs ih =>
    cases i with
    | zero =>
      cases j with
      | zero => simp [listModify]
      | succ m => simp [listModify]
    | succ n =>
      cases j with
      | zero => simp [listModify]
      | succ m => simpa [listModify] using ih n m

theorem listRemove_length (l : List α) (i : Nat) (h : i < l.length) :
    (listRemove l i).length = l.length - 1 := by
  induction l generalizing i with
  | nil => simp at h
  | cons x xs ih =>
    cases i with
    | zero => rfl
    | succ n =>
      have hn : n < xs.length := by simpa using h
      cases xs with
      | nil => simp at hn
      | cons y ys => simpa [listRemove] using ih n hn

theorem listRemove_get_lt (l : List α) (i j : Nat) (h : j < i) :
    (listRemove l i).get? j = l.get? j := by
  induction l generalizing i j with
  | nil => simp [listRemove]
  | cons x xs ih =>
    cases i with
    | zero => omega
    | succ n =>
      cases j with
      | zero => simp [listRemove]
      | succ m => simpa [listRemove] using ih n m (by omega)

theorem listInsertIdx_length (l : List α) (i : Nat) (x : α) :
    (listInsertIdx l i x).length = l.length + 1 := by
  induction l generalizing i with
  | nil => cases i <;> rfl
  | cons y ys ih =>
    cases i with
    | zero => rfl
    | succ n => simpa [listInsertIdx] using ih n

theorem listInsertIdx_get_lt (l : List α) (i j : Nat) (x : α)
    (h : j < i) (hi : i ≤ l.length) :
    (listInsertIdx l i x).get? j = l.get? j := by
  induction l generalizing i j with
  | nil => simp at hi; omega
  | cons y ys ih =>
    cases i with
    | zero => omega
    | succ n =>
      cases j with
      | zero => simp [listInsertIdx]
      | succ m => simpa [listInsertIdx] using ih n m (by omega) (by simpa using hi)

theorem Line.clear_clear (l : Line) (s : CellStyle) :
    (l.clear s).clear s = l.clear s := by
  simp [Line.clear, List.map_map, Function.comp]

theorem clearRows_cons (ls : List Line) (start r : Nat) (rs : List Nat)
    (style : CellStyle) :
    clearRows ls start (r :: rs) style =
      clearRows (listModify ls (start + r) (fun l => l.clear style)) start rs style := rfl

theorem clearRows_length (ls : List Line) (start : Nat) (rs : List Nat)
    (style : CellStyle) : (clearRows ls start rs style).length = ls.length := by
  induction rs generalizing ls with
  | nil => rfl
  | cons r rs ih => simp [clearRows_cons, ih, listModify_length]

theorem clearRows_get? (ls : List Line) (start : Nat) (rs : List Nat)
    (style : CellStyle) (j : Nat) :
    (clearRows ls start rs style).get? j =
      if ∃ r ∈ rs, start + r = j then (ls.get? j).map (fun l => l.clear style)
      else ls.get? j := by
  induction rs generalizing ls with
  | nil => simp [clearRows]
  | cons r rs ih =>
    rw [clearRows_cons, ih]
    by_cases h1 : start + r = j
    · by_cases h2 : ∃ r' ∈ rs, start + r' = j
      · rw [if_pos h2, if_pos (by exact ⟨r, by simp, h1⟩)]
        rw [listModify_get?, if_pos h1]
        cases hl : ls.get? j <;> simp [Line.clear_clear]
      · rw [if_neg h2, if_pos (by exact ⟨r, by simp, h1⟩)]
        rw [listModify_get?, if_pos h1]
    · by_cases h2 : ∃ r' ∈ rs, start + r' = j
      · rw [if_pos h2, listModify_get?, if_neg h1]
        rw [if_pos (by obtain ⟨r', hr', he⟩ := h2; exact ⟨r', by simp [hr'], he⟩)]
      · rw [if_neg h2, listModify_get?, if_neg h1]
        rw [if_neg (by
          rintro ⟨r', hr', he⟩
          rcases List.mem_cons.mp hr' with h | h
          · exact h1 (h ▸ he)
          · exact h2 ⟨r', h, he⟩)]

/-- Lines strictly before the cleared block are untouched. -/
theorem clearRows_get_lt (ls : List Line) (start : Nat) (rs : List Nat)
    (style : CellStyle) (j : Nat) (h : j < start) :
    (clearRows ls start rs style).get? j = ls.get? j := by
  rw [clearRows_get?, if_neg]
  rintro ⟨r, _, he⟩
  omega

/-! Helper lemmas about `processBytes`. -/

theorem processBytes_nil (st : EmuState) : processBytes st [] = some st := rfl

theorem processBytes_cons (st : EmuState) (b : Nat) (l : List Nat) :
    processBytes st (b :: l) = (step st b).bind (fun s => processBytes s l) := by
  simp [processBytes]

theorem processBytes_append (st : EmuState) (l1 l2 : List Nat) :
    processBytes st (l1 ++ l2) =
      (processBytes st l1).bind (fun s => processBytes s l2) := by
  induction l1 generalizing st with
  | nil => simp [processBytes_nil]
  | cons b l ih =>
    rw [List.cons_append, processBytes_cons, processBytes_cons]
    cases step st b <;> simp [ih]

theorem processBytes_flatten (st : EmuState) (chunks : List (List Nat)) :
    processBytes st chunks.flatten = chunks.foldlM processBytes st := by
  induction chunks generalizing st with
  | nil => rfl
  | cons c cs ih =>
    rw [List.flatten_cons, processBytes_append, List.foldlM_cons]
    cases processBytes st c <;> simp [ih]

/-! Helper lemmas about the buffer operations. -/

/-- `erase_in_display(2)` never panics: it clears the screen rows in place. -/
theorem eraseInDisplay_two (b : TerminalBuffer) :
    b.eraseInDisplay 2 =
      some { b with lines := clearRows b.lines b.serverScreenStart (List.range b.rows) b.currentStyle } := rfl

theorem scrollUp_succ (b : TerminalBuffer) (n : Nat) :
    b.scrollUp (n + 1) = (TerminalBuffer.scrollUpOnce b).scrollUp n := rfl

/-- One region-confined scroll step: with `scroll_top ≠ 0` the screen start,
the line count and every line before the screen start are preserved, and the
region bounds and cursor are untouched. -/
theorem scrollUpOnce_region (b : TerminalBuffer) (h : b.scrollTop ≠ 0) :
    (TerminalBuffer.scrollUpOnce b).serverScreenStart = b.serverScreenStart ∧
    (TerminalBuffer.scrollUpOnce b).lines.length = b.lines.length ∧
    (TerminalBuffer.scrollUpOnce b).scrollTop = b.scrollTop ∧
    (∀ i, i < b.serverScreenStart →
      (TerminalBuffer.scrollUpOnce b).lines.get? i = b.lines.get? i) := by
  unfold TerminalBuffer.scrollUpOnce
  rw [if_neg h]
  simp only [TerminalBuffer.toBufferIdx]
  by_cases hlt : b.serverScreenStart + b.scrollTop < b.lines.length
  · rw [if_pos hlt]
    have hrl : (listRemove b.lines (b.serverScreenStart + b.scrollTop)).length =
        b.lines.length - 1 := listRemove_length _ _ hlt
    refine ⟨rfl, ?_, rfl, ?_⟩
    · rw [listInsertIdx_length, hrl]
      omega
    · intro i hi
      have htop : i < b.serverScreenStart + b.scrollTop := by omega
      have hlen : i < (listRemove b.lines (b.serverScreenStart + b.scrollTop)).length := by
        rw [hrl]; omega
      rw [listInsertIdx_get_lt _ _ _ _ (lt_min (by omega) hlen) (min_le_right _ _)]
      exact listRemove_get_lt _ _ _ htop
  · rw [if_neg hlt]
    exact ⟨rfl, rfl, rfl, fun i _ => rfl⟩

/-- Region-confined scrolling by any count preserves the screen start, line
count and all lines before the screen start. -/
theorem scrollUp_region (b : TerminalBuffer) (n : Nat) (h : b.scrollTop ≠ 0) :
    (b.scrollUp n).serverScreenStart = b.serverScreenStart ∧
    (b.scrollUp n).lines.length = b.lines.length ∧
    (b.scrollUp n).scrollTop = b.scrollTop ∧
    (∀ i, i < b.serverScreenStart →
      (b.scrollUp n).lines.get? i = b.lines.get? i) := by
  induction n generalizing b with
  | zero => exact ⟨rfl, rfl, rfl, fun i _ => rfl⟩
  | succ n ih =>
    obtain ⟨o1, o2, o3, o4⟩ := scrollUpOnce_region b h
    obtain ⟨i1, i2, i3, i4⟩ := ih (TerminalBuffer.scrollUpOnce b) (by rw [o3]; exact h)
    rw [scrollUp_succ]
    refine ⟨by rw [i1, o1], by rw [i2, o2], by rw [i3, o3], fun i hi => ?_⟩
    rw [i4 i (by rw [o1]; exact hi), o4 i hi]

/-- A byte below 0x80 with an empty UTF-8 accumulator goes straight to the
lexer; when the lexer emits no action only the parser changes. -/
theorem step_parse_none (st : EmuState) (b : Nat) (hb : b < 0x80)
    (h2 : st.vt.utf8Buffer = []) (p' : AnsiParser)
    (hp : st.vt.parser.parse b = (p', none)) :
    step st b = some { st with vt := { st.vt with parser := p' } } := by
  simp only [step]
  rw [if_neg (by simp [h2]), if_neg (by omega), if_neg (by omega), hp]

/-- As `step_parse_none`, for a byte on which the lexer emits an action:
the action is interpreted with the already-updated parser. -/
theorem step_parse_some (st : EmuState) (b : Nat) (hb : b < 0x80)
    (h2 : st.vt.utf8Buffer = []) (p' : AnsiParser) (a : AnsiAction)
    (hp : st.vt.parser.parse b = (p', some a)) :
    step st b = (handleAction { st.vt with parser := p' } st.buffer a).map
      (fun vb => ⟨vb.1, vb.2⟩) := by
  simp only [step]
  rw [if_neg (by simp [h2]), if_neg (by omega), if_neg (by omega), hp]

/-- One `scroll_down` step with a well-formed region (`top ≤ bottom`)
cannot panic and preserves the screen start, region bounds, line count and
all lines before the screen start. -/
theorem scrollDownOnce_region (b : TerminalBuffer) (h : b.scrollTop ≤ b.scrollBottom) :
    ∃ b', TerminalBuffer.scrollDownOnce b = some b' ∧
      b'.serverScreenStart = b.serverScreenStart ∧
      b'.lines.length = b.lines.length ∧
      b'.scrollTop = b.scrollTop ∧
      b'.scrollBottom = b.scrollBottom ∧
      (∀ i, i < b.serverScreenStart → b'.lines.get? i = b.lines.get? i) := by
  unfold TerminalBuffer.scrollDownOnce
  simp only [TerminalBuffer.toBufferIdx]
  by_cases hlt : b.serverScreenStart + b.scrollBottom < b.lines.length
  · rw [if_pos hlt]
    have hrl : (listRemove b.lines (b.serverScreenStart + b.scrollBottom)).length =
        b.lines.length - 1 := listRemove_length _ _ hlt
    have hins : b.serverScreenStart + b.scrollTop ≤
        (listRemove b.lines (b.serverScreenStart + b.scrollBottom)).length := by
      rw [hrl]; omega
    rw [listInsert?, if_pos hins, Option.map_some']
    refine ⟨_, rfl, rfl, ?_, rfl, rfl, ?_⟩
    · rw [listInsertIdx_length, hrl]; omega
    · intro i hi
      rw [listInsertIdx_get_lt _ _ _ _ (by omega) hins]
      exact listRemove_get_lt _ _ _ (by omega)
  · rw [if_neg hlt]
    exact ⟨b, rfl, rfl, rfl, rfl, rfl, fun i _ => rfl⟩

/-- `scroll_down(count)` with a well-formed region: no panic, history and
line count untouched. -/
theorem scrollDown_region (b : TerminalBuffer) (n : Nat)
    (h : b.scrollTop ≤ b.scrollBottom) :
    ∃ b', b.scrollDown n = some b' ∧
      b'.serverScreenStart = b.serverScreenStart ∧
      b'.lines.length = b.lines.length ∧
      (∀ i, i < b.serverScreenStart → b'.lines.get? i = b.lines.get? i) := by
  induction n generalizing b with
  | zero => exact ⟨b, rfl, rfl, rfl, fun i _ => rfl⟩
  | succ n ih =>
    obtain ⟨b1, e0, e1, e2, e3, e4, e5⟩ := scrollDownOnce_region b h
    obtain ⟨b2, f0, f1, f2, f3⟩ := ih b1 (by rw [e3, e4]; exact h)
    refine ⟨b2, ?_, by rw [f1, e1], by rw [f2, e2], fun i hi => ?_⟩
    · show (TerminalBuffer.scrollDownOnce b).bind (fun x => x.scrollDown n) = some b2
      rw [e0, Option.some_bind, f0]
    · rw [f3 i (by rw [e1]; exact hi), e5 i hi]

/-! Claim theorems. -/

/-- C1: `process()` is NOT panic-free.  From a fresh emulator,
`CSI 5;1 H` places the cursor on row 4 while the buffer still holds no
lines; the following `CSI L` (insert_lines) then calls `VecDeque::insert`
at index 4 on an empty deque, which panics (modelled as `none`). -/
theorem c1_process_can_panic :
    processBytes initState [27, 91, 53, 59, 49, 72, 27, 91, 76] = none := by decide

/-- C2: chunk-invariance of `process()`.  Splitting a byte stream across
any two consecutive calls, or across any list of chunks, yields exactly
the same emulator state (buffer, cursor, lexer state, mode flags, pending
bell/title) as one call, panics included. -/
theorem c2_chunk_invariance :
    (∀ (st : EmuState) (b1 b2 : List Nat),
      processBytes st (b1 ++ b2) =
        (processBytes st b1).bind (fun s => processBytes s b2)) ∧
    (∀ (st : EmuState) (chunks : List (List Nat)),
      processBytes st chunks.flatten = chunks.foldlM processBytes st) :=
  ⟨processBytes_append, processBytes_flatten⟩

/-- C3: `resize(cols, rows)` only records the new geometry and scroll
bottom; it neither pads/truncates the retained lines nor clamps the
cursor.  With the cursor at column 70 on an 80-column buffer,
`resize(40, 24)` leaves the cursor at column 70 and the written line at
80 cells. -/
theorem c3_resize_keeps_geometry_only :
    (∀ (b : TerminalBuffer) (c r : Nat),
      (b.resize c r).lines = b.lines ∧ (b.resize c r).cursor = b.cursor ∧
      (b.resize c r).cols = c ∧ (b.resize c r).rows = r ∧
      (b.resize c r).scrollBottom = r - 1) ∧
    (wideCursorBuf.resize 40 24).cursor.col = 70 ∧
    ((wideCursorBuf.resize 40 24).getLine 0).map Line.len = some 80 :=
  ⟨fun _ _ _ => ⟨rfl, rfl, rfl, rfl, rfl⟩, by decide, by decide⟩

/-- C4 counterexample: a scroll region whose top margin is row 0
(`CSI 1;5r`, a DECSTBM-set region) does NOT confine scrolling: a line-feed
at its bottom margin takes the full-screen path, appending a line and
advancing the history (`scrollback_len` goes from 0 to 1), contrary to the
claim that region scrolling never touches history. -/
theorem c4_top_zero_region_touches_history :
    (processBytes initState
        [27, 91, 49, 59, 53, 114, 27, 91, 53, 59, 49, 72, 10]).map
      (fun s => (s.buffer.scrollbackLen, s.buffer.totalLines,
                 s.buffer.scrollTop, s.buffer.scrollBottom)) =
      some (1, 1, 0, 4) ∧
    initState.buffer.scrollbackLen = 0 ∧ initState.buffer.totalLines = 0 := by
  refine ⟨by decide, rfl, rfl⟩

/-- C4 (amended): for a scroll region whose top margin is positive,
`scroll_up` by any count preserves the scrollback length, the total line
count and every line before the screen start; and any line-feed with the
cursor at or below the bottom margin performs exactly that region scroll. -/
theorem c4_region_scroll_confinement (b : TerminalBuffer) (n : Nat)
    (h : 0 < b.scrollTop) :
    (b.scrollUp n).scrollbackLen = b.scrollbackLen ∧
    (b.scrollUp n).totalLines = b.totalLines ∧
    (∀ i, i < b.scrollbackLen → (b.scrollUp n).getLine i = b.getLine i) ∧
    (b.scrollBottom ≤ b.cursor.row → b.newLine = b.scrollUp 1) ∧
    (b.scrollTop ≤ b.scrollBottom →
      ∃ b', b.scrollDown n = some b' ∧
        b'.scrollbackLen = b.scrollbackLen ∧ b'.totalLines = b.totalLines ∧
        ∀ i, i < b.scrollbackLen → b'.getLine i = b.getLine i) := by
  obtain ⟨e1, e2, _, e4⟩ := scrollUp_region b n (by omega)
  refine ⟨e1, e2, fun i hi => e4 i hi, fun hc => ?_, fun hts => ?_⟩
  · unfold TerminalBuffer.newLine
    rw [if_pos hc]
  · obtain ⟨b', f0, f1, f2, f3⟩ := scrollDown_region b n hts
    exact ⟨b', f0, f1, f2, f3⟩

/-- C4 witness: the amended theorem applied to a buffer with scroll region
rows 5–10 and count 3. -/
theorem c4_region_scroll_confinement_witness :
    0 < regionDemoBuf.scrollTop ∧
    (regionDemoBuf.scrollUp 3).scrollbackLen = regionDemoBuf.scrollbackLen :=
  ⟨by decide, (c4_region_scroll_confinement regionDemoBuf 3 (by decide)).1⟩

/-- C5 counterexample: RIS does not reset bracketed-paste, and with origin
mode active it homes the cursor to the scroll-region top, not row 0.
After `CSI 5;10r`, `CSI ?6h`, `CSI ?2004h`, `ESC c` the emulator reports
bracketed-paste still on and cursor row 4. -/
theorem c5_ris_keeps_bracketed_paste :
    (processBytes initState
        [27, 91, 53, 59, 49, 48, 114, 27, 91, 63, 54, 104,
         27, 91, 63, 50, 48, 48, 52, 104, 27, 99]).map
      (fun s => (s.vt.bracketedPaste, s.buffer.cursor.row)) =
      some (true, 4) := by decide

/-- C6: ECH ignores its count.  The claim requires `CSI 1 X` at column 0 to
blank exactly one cell, leaving `D` at column 3 untouched; the code calls
`erase_in_line(0)` and blanks from the cursor to the end of the line, so
column 3 (holding `D` just before) becomes a space. -/
theorem c6_ech_ignores_count :
    (processBytes initState [65, 66, 67, 68, 13]).bind
      (fun s => (cellAt s 0 3).map Cell.ch) = some 'D' ∧
    (processBytes initState [65, 66, 67, 68, 13, 27, 91, 49, 88]).bind
      (fun s => (cellAt s 0 3).map Cell.ch) = some ' ' :=
  ⟨by decide, by decide⟩

/-- C7: SGR 0 resets the style to the default foreground, transparent
background and all attributes off, and SGR sequences compose from the
current style: after `ESC[31m X ESC[0m Y`, the `X` cell carries standard
red (170,0,0) and the `Y` cell the default foreground with all attributes
clear. -/
theorem c7_sgr_reset_and_compose :
    (∀ (s : CellStyle) (dfg : Color),
      parseSgr [0] s dfg = { CellStyle.default with fg := dfg }) ∧
    (processBytes initState [27, 91, 51, 49, 109, 88, 27, 91, 48, 109, 89]).bind
      (fun s => cellAt s 0 0) =
      some ⟨'X', { CellStyle.default with fg := Color.fromRgb 170 0 0 }⟩ ∧
    (processBytes initState [27, 91, 51, 49, 109, 88, 27, 91, 48, 109, 89]).bind
      (fun s => cellAt s 0 1) =
      some ⟨'Y', { CellStyle.default with fg := Color.fromRgb 204 204 204 }⟩ :=
  ⟨fun _ _ => rfl, by decide, by decide⟩

/-- C9 counterexample: ESC received inside an OSC string does not drop the
sequence silently: the accumulated OSC is dispatched (an action IS
emitted), though the lexer does restart in the Escape state. -/
theorem c9_osc_esc_emits_action :
    (midOscParser.parse 27).2 = some (AnsiAction.oscDispatch [['0'], ['h', 'i']]) ∧
    (midOscParser.parse 27).1.state = State.escape := by
  refine ⟨by decide, by decide⟩

/-- C9 (amended): ESC in any non-Ground state restarts the lexer in the
Escape state; no action is emitted except from OscString (which dispatches
the accumulated OSC string) and DcsPassthrough (which emits DcsUnhook). -/
theorem c9_esc_aborts (p : AnsiParser) (h : p.state ≠ State.ground) :
    (p.parse 27).1.state = State.escape ∧
    (p.state ≠ State.oscString → p.state ≠ State.dcsPassthrough →
      (p.parse 27).2 = none) ∧
    (p.state = State.oscString →
      (p.parse 27).2 = some (AnsiAction.oscDispatch (splitSemi p.oscString))) ∧
    (p.state = State.dcsPassthrough → (p.parse 27).2 = some AnsiAction.dcsUnhook) := by
  obtain ⟨s, ps, cp, ins, osc⟩ := p
  cases s <;>
    simp_all [AnsiParser.parse, AnsiParser.groundStep, AnsiParser.escapeStep,
      AnsiParser.escapeIntermediateStep, AnsiParser.csiEntryStep,
      AnsiParser.csiParamStep, AnsiParser.csiIntermediateStep,
      AnsiParser.csiIgnoreStep, AnsiParser.dcsEntryStep, AnsiParser.dcsParamStep,
      AnsiParser.dcsIntermediateStep, AnsiParser.dcsPassthroughStep,
      AnsiParser.dcsIgnoreStep, AnsiParser.oscStringStep,
      AnsiParser.sosPmApcStringStep, AnsiParser.reset]

/-- C9 witness: the amended theorem applied to a parser mid-CSI. -/
theorem c9_esc_aborts_witness :
    midCsiParser.state ≠ State.ground ∧
    (midCsiParser.parse 27).1.state = State.escape :=
  ⟨by decide, (c9_esc_aborts midCsiParser (by decide)).1⟩

/-- C10: a freshly constructed buffer holds no lines (`total_lines` and
`scrollback_len` are 0 and every `get_line` is `none`), and pure cursor
motion never materialises a line: all motion primitives leave the line
collection untouched. -/
theorem c10_new_buffer_empty :
    (∀ (ms : Nat) (fg bg : Color),
      (TerminalBuffer.new ms fg bg).totalLines = 0 ∧
      (TerminalBuffer.new ms fg bg).scrollbackLen = 0 ∧
      ∀ i, (TerminalBuffer.new ms fg bg).getLine i = none) ∧
    (∀ (b : TerminalBuffer) (r c : Nat),
      (b.setCursorPosition r c).lines = b.lines ∧
      (b.moveCursorUp c).lines = b.lines ∧
      (b.moveCursorDown c).lines = b.lines ∧
      (b.moveCursorLeft c).lines = b.lines ∧
      (b.moveCursorRight c).lines = b.lines ∧
      b.carriageReturn.lines = b.lines ∧
      b.backspace.lines = b.lines ∧
      b.tab.lines = b.lines ∧
      b.saveCursor.lines = b.lines ∧
      b.restoreCursor.lines = b.lines) := by
  constructor
  · intro ms fg bg
    refine ⟨rfl, rfl, fun i => ?_⟩
    simp [TerminalBuffer.getLine, TerminalBuffer.new]
  · intro b r c
    refine ⟨rfl, rfl, rfl, rfl, rfl, rfl, ?_, rfl, rfl, rfl⟩
    unfold TerminalBuffer.backspace
    split <;> rfl

/-- C5 (amended): `ESC c` (RIS) from any ground-lexer state clears every
existing screen line to spaces, moves the cursor to column 0 and row 0
(or to the scroll-region top clamped by the bottom margin while origin
mode is on, the cursor being positioned before the region resets), resets
the style and the scroll region, and resets cursor-keys-application,
auto-wrap, cursor-visible and reverse-video; bracketed-paste is left
unchanged. -/
theorem c5_ris_reset (st : EmuState) (h1 : st.vt.parser.state = State.ground)
    (h2 : st.vt.utf8Buffer = []) : risResetSpec st := by
  have hp : st.vt.parser.parse 27 = (⟨State.escape, [], 0, [], []⟩, none) := by
    unfold AnsiParser.parse
    rw [h1]
    rfl
  have s1 : step st 27 = some (withParser st ⟨State.escape, [], 0, [], []⟩) :=
    step_parse_none st 27 (by omega) h2 _ hp
  have s2 : step (withParser st ⟨State.escape, [], 0, [], []⟩) 99 =
      some (risResult st) := by
    rw [step_parse_some (withParser st ⟨State.escape, [], 0, [], []⟩) 99 (by omega)
      h2 ⟨State.ground, [], 0, [], []⟩ (.escDispatch [] 'c') rfl]
    rfl
  have hrun : processBytes st [27, 99] = some (risResult st) := by
    rw [processBytes_cons, s1, Option.some_bind, processBytes_cons, s2,
      Option.some_bind, processBytes_nil]
  refine ⟨risResult st, hrun, rfl, rfl, rfl, rfl, rfl, ?_, ?_, rfl, rfl, rfl, ?_⟩
  · simp only [risResult, risBuffer, TerminalBuffer.resetScrollRegion,
      TerminalBuffer.resetStyle, TerminalBuffer.setCursorPosition]
    omega
  · cases horig : st.buffer.originMode <;>
      simp [risResult, risBuffer, TerminalBuffer.resetScrollRegion,
        TerminalBuffer.resetStyle, TerminalBuffer.setCursorPosition, horig]
  · intro r hr l hl c hc
    replace hl : (clearRows st.buffer.lines st.buffer.serverScreenStart
        (List.range st.buffer.rows) st.buffer.currentStyle).get?
        (st.buffer.serverScreenStart + r) = some l := hl
    rw [clearRows_get?, if_pos ⟨r, List.mem_range.mpr hr, rfl⟩] at hl
    cases hg : st.buffer.lines.get? (st.buffer.serverScreenStart + r) with
    | none => rw [hg] at hl; simp at hl
    | some l0 =>
      rw [hg] at hl
      simp only [Option.map_some', Option.some.injEq] at hl
      subst hl
      simp only [Line.clear, List.mem_map] at hc
      obtain ⟨c0, _, hc0⟩ := hc
      subst hc0
      exact ⟨rfl, rfl⟩

/-- C5 witness: the amended RIS theorem applied to a fresh emulator. -/
theorem c5_ris_reset_witness :
    initState.vt.parser.state = State.ground ∧
    initState.vt.utf8Buffer = [] ∧ risResetSpec initState :=
  ⟨rfl, rfl, c5_ris_reset initState rfl rfl⟩

/-- C8: `CSI 2 J` clears only the live screen rows: the total line count,
the scrollback length and every history line before the screen start are
exactly as before, and no line is allocated by the erase. -/
theorem c8_erase_display_preserves_history (st : EmuState)
    (h1 : st.vt.parser.state = State.ground) (h2 : st.vt.utf8Buffer = []) :
    eraseDisplaySpec st := by
  have hp : st.vt.parser.parse 27 = (⟨State.escape, [], 0, [], []⟩, none) := by
    unfold AnsiParser.parse
    rw [h1]
    rfl
  have s1 : step st 27 = some (withParser st ⟨State.escape, [], 0, [], []⟩) :=
    step_parse_none st 27 (by omega) h2 _ hp
  have s2 : step (withParser st ⟨State.escape, [], 0, [], []⟩) 91 =
      some (withParser st ⟨State.csiEntry, [], 0, [], []⟩) :=
    step_parse_none (withParser st ⟨State.escape, [], 0, [], []⟩) 91 (by omega) h2 _ rfl
  have s3 : step (withParser st ⟨State.csiEntry, [], 0, [], []⟩) 50 =
      some (withParser st ⟨State.csiParam, [], 2, [], []⟩) :=
    step_parse_none (withParser st ⟨State.csiEntry, [], 0, [], []⟩) 50 (by omega) h2 _ rfl
  have s4 : step (withParser st ⟨State.csiParam, [], 2, [], []⟩) 74 =
      some (eraseResult st) := by
    rw [step_parse_some (withParser st ⟨State.csiParam, [], 2, [], []⟩) 74 (by omega)
      h2 ⟨State.ground, [2], 0, [], []⟩ (.csiDispatch [2] [] 'J') rfl]
    rfl
  have hrun : processBytes st [27, 91, 50, 74] = some (eraseResult st) := by
    rw [processBytes_cons, s1, Option.some_bind, processBytes_cons, s2,
      Option.some_bind, processBytes_cons, s3, Option.some_bind,
      processBytes_cons, s4, Option.some_bind, processBytes_nil]
  refine ⟨eraseResult st, hrun, ?_, rfl, ?_, ?_, ?_⟩
  · show (clearedLines st.buffer).length = st.buffer.lines.length
    exact clearRows_length st.buffer.lines st.buffer.serverScreenStart
      (List.range st.buffer.rows) st.buffer.currentStyle
  · intro i hi
    show (clearedLines st.buffer).get? i = st.buffer.lines.get? i
    exact clearRows_get_lt st.buffer.lines st.buffer.serverScreenStart
      (List.range st.buffer.rows) st.buffer.currentStyle i hi
  · intro i hi
    show (clearedLines st.buffer).get? i = st.buffer.lines.get? i
    rw [clearedLines, clearRows_get?, if_neg]
    rintro ⟨r, hr, he⟩
    rw [List.mem_range] at hr
    omega
  · intro r hr l hl c hc
    replace hl : (clearRows st.buffer.lines st.buffer.serverScreenStart
        (List.range st.buffer.rows) st.buffer.currentStyle).get?
        (st.buffer.serverScreenStart + r) = some l := hl
    rw [clearRows_get?, if_pos ⟨r, List.mem_range.mpr hr, rfl⟩] at hl
    cases hg : st.buffer.lines.get? (st.buffer.serverScreenStart + r) with
    | none => rw [hg] at hl; simp at hl
    | some l0 =>
      rw [hg] at hl
      simp only [Option.map_some', Option.some.injEq] at hl
      subst hl
      simp only [Line.clear, List.mem_map] at hc
      obtain ⟨c0, _, hc0⟩ := hc
      subst hc0
      exact ⟨rfl, rfl⟩

/-- C8 witness: the erase-preserves-history theorem applied to a fresh
emulator. -/
theorem c8_erase_display_preserves_history_witness :
    initState.vt.parser.state = State.ground ∧
    initState.vt.utf8Buffer = [] ∧ eraseDisplaySpec initState :=
  ⟨rfl, rfl, c8_erase_display_preserves_history initState rfl rfl⟩

end Yassh
